import Mathlib

/-!
Verification of the mutual-fund data-processor ingestion pipeline.

This file gives a shallow embedding, in Lean 4, of the parts of the
repository that the checked properties are about:

* the value-coercion helpers `clean_text` / `clean_date` / `clean_numeric`
  (src/processor/process_dbf.py, identical copies in the sibling modules);
* the idempotency tracker (`load_processed_files`, `is_already_processed`,
  `mark_as_processed` in src/processor/email_dbf_download_handler.py);
* the archive extractor boundary (`extract_zip`, same module);
* the password-resolution heuristics of `process_dbf_download_links`
  (same module, lines 174-199);
* the subject-to-table dispatch (`SUBJECT_TABLE_MAP`,
  `get_table_name_from_subject` in src/main.py);
* the intra-batch first-wins deduplication and the batched commit loops of
  `process_cam_inv_dataframe` (src/processor/process_dbf.py),
  `process_sip_wbr49_dataframe` (src/processor/process_sip.py) and
  `process_kfintech_trxn_dataframe` (src/processor/kafintech_trxn_report.py).

Python machine state that the code threads through (the database
connection, the filesystem, `datetime.now()`) is made explicit: the
database is an oracle saying which rows violate a constraint, the clock is
a parameter, and file writes are collected in the run-output structure.
External library functions (`float`, `pandas.to_datetime`, `re.search`,
`pyzipper`) are modelled by executable Lean definitions whose doc comments
say exactly which library behaviour they capture.
-/

namespace MFProc

/-! ## Basic value types -/

/-- A calendar date, as returned by Python `datetime.date` /
`pandas.Timestamp.date()`. -/
structure Date where
  year : Nat
  month : Nat
  day : Nat
deriving DecidableEq, Repr

/-- Model of a `pandas.Timestamp`: a calendar date together with a
time-of-day component (seconds past midnight).  `pandas.Timestamp.date()`
is the `date` projection, discarding `secondOfDay`. -/
structure PdTimestamp where
  date : Date
  secondOfDay : Nat
deriving DecidableEq, Repr

/-- A raw cell value as seen by the Python cleaning helpers: either a
missing value (`NaN`/`None`, for which `pd.isna` is true) or a string.
The feeds deliver DBF/CSV cells, which arrive as strings or missing. -/
inductive RawValue where
  | na : RawValue
  | str : String → RawValue
deriving DecidableEq, Repr

/-- A typed cleaned cell inside a CleanedRow tuple: the output of one of
the `clean_*` helpers, the provenance `source_file` string, or a
`datetime.now()` timestamp (abstracted to a `Nat` tick). -/
inductive CleanedValue where
  | text : Option String → CleanedValue
  | date : Option Date → CleanedValue
  | num : Option Rat → CleanedValue
  | file : String → CleanedValue
  | stamp : Nat → CleanedValue
deriving DecidableEq, Repr

/-! ## Character-list string primitives

Kernel-reducible replacements for the string operations the Python code
uses (`str.strip`, `str.replace`, `str.lower`, `in`, `str.split`), all
structural over `List Char` so that concrete witnesses evaluate by
`decide`. -/

/-- The ASCII whitespace characters stripped by Python `str.strip()`:
space, tab, newline, carriage return, vertical tab, form feed. -/
def isWsChar (c : Char) : Bool :=
  c = ' ' ∨ c = '\t' ∨ c = '\n' ∨ c = '\r' ∨ c = Char.ofNat 11 ∨ c = Char.ofNat 12

/-- Python `str.strip()` on a character list. -/
def pyStrip (cs : List Char) : List Char :=
  (((cs.dropWhile isWsChar).reverse).dropWhile isWsChar).reverse

/-- Python `str.strip()`. -/
def strTrim (s : String) : String :=
  String.mk (pyStrip s.toList)

/-- Python `s.replace(',', '')`: remove every comma. -/
def stripCommas (s : String) : String :=
  String.mk (s.toList.filter (· ≠ ','))

/-- ASCII lower-casing of one character, as Python `str.lower()` does on
the ASCII range (the subject codes and markers compared here are ASCII). -/
def lowerChar (c : Char) : Char :=
  if 'A' ≤ c ∧ c ≤ 'Z' then Char.ofNat (c.toNat + 32) else c

/-- Python `str.lower()`. -/
def strLower (s : String) : String :=
  String.mk (s.toList.map lowerChar)

/-- Does `cs` start with `needle`? -/
def startsWithChars : List Char → List Char → Bool
  | _, [] => true
  | [], _ :: _ => false
  | c :: cs, d :: ds => c = d && startsWithChars cs ds

/-- Does `needle` occur contiguously inside `hay`?  Python `needle in
hay` on strings. -/
def containsChars (needle : List Char) : List Char → Bool
  | [] => startsWithChars [] needle
  | c :: cs => startsWithChars (c :: cs) needle || containsChars needle cs

/-- Python substring containment `needle in hay`. -/
def strContains (hay needle : String) : Bool :=
  containsChars needle.toList hay.toList

/-- Python `str.split(sep)` for a one-character separator. -/
def splitOnChar (sep : Char) : List Char → List (List Char)
  | [] => [[]]
  | c :: cs =>
    let r := splitOnChar sep cs
    if c = sep then [] :: r
    else
      match r with
      | [] => [[c]]
      | h :: t => (c :: h) :: t

/-! ## Library models -/

/-- Numeric value of a (possibly empty) list of decimal digits. -/
def digitsToNat (cs : List Char) : Nat :=
  cs.foldl (fun a c => a * 10 + (c.toNat - 48)) 0

/-- Model of the external library function Python `float` on the fragment
relevant here: an optional sign followed by decimal digits with at most
one decimal point (`"12"`, `"-3.5"`, `"1."`, `".5"`).  Exponents and the
specials `inf`/`nan` are outside the model.  `none` models the
`ValueError` that `float` raises on an unparseable string. -/
def pyFloatCore (cs : List Char) : Option Rat :=
  let intPart := cs.takeWhile (· ≠ '.')
  let rest := cs.dropWhile (· ≠ '.')
  match rest with
  | [] =>
    if intPart ≠ [] ∧ intPart.all Char.isDigit then
      some (digitsToNat intPart : Rat)
    else none
  | '.' :: frac =>
    if (intPart ≠ [] ∨ frac ≠ []) ∧ intPart.all Char.isDigit ∧ frac.all Char.isDigit then
      some ((digitsToNat intPart : Rat) + (digitsToNat frac : Rat) / ((10 : Rat) ^ frac.length))
    else none
  | _ => none

/-- Model of Python `float(s)`: `float` itself tolerates surrounding
whitespace, and rejects the empty string. -/
def pyFloat (s : String) : Option Rat :=
  match pyStrip s.toList with
  | '-' :: rest => (pyFloatCore rest).map (fun q => -q)
  | '+' :: rest => pyFloatCore rest
  | cs => pyFloatCore cs

/-- Parse a fixed-width run of digits as a `Nat`, requiring every
character to be a digit and the run to be non-empty. -/
def parseNatAll (cs : List Char) : Option Nat :=
  if cs ≠ [] ∧ cs.all Char.isDigit then some (digitsToNat cs) else none

/-- Date part of the `pandas.to_datetime` model: `"YYYY-MM-DD"`. -/
def pdParseDate (d : List Char) : Option Date :=
  match splitOnChar '-' d with
  | [y, m, dd] => do
    let y ← parseNatAll y
    let m ← parseNatAll m
    let dd ← parseNatAll dd
    if 1 ≤ m ∧ m ≤ 12 ∧ 1 ≤ dd ∧ dd ≤ 31 then
      pure ⟨y, m, dd⟩
    else none
  | _ => none

/-- Time part of the `pandas.to_datetime` model: `"HH:MM:SS"`. -/
def pdParseTime (t : List Char) : Option Nat :=
  match splitOnChar ':' t with
  | [h, mi, se] => do
    let h ← parseNatAll h
    let mi ← parseNatAll mi
    let se ← parseNatAll se
    if h ≤ 23 ∧ mi ≤ 59 ∧ se ≤ 59 then pure (h * 3600 + mi * 60 + se)
    else none
  | _ => none

/-- Model of the external library call `pandas.to_datetime(s,
errors='coerce')` on the fragment relevant here: an ISO date
`"YYYY-MM-DD"` optionally followed by a time `" HH:MM:SS"`.  `none`
models `NaT` (for which `pd.notna` is false).  The permissive
multi-format parsing of pandas beyond this fragment is outside the
model; every modelled claim only needs that parsing yields a timestamp
carrying a date and a time-of-day, or fails. -/
def pdToDatetime (s : String) : Option PdTimestamp :=
  match (splitOnChar ' ' (pyStrip s.toList)).filter (· ≠ []) with
  | [d] => (pdParseDate d).map (fun dt => ⟨dt, 0⟩)
  | [d, t] => do
    let dt ← pdParseDate d
    let sec ← pdParseTime t
    pure ⟨dt, sec⟩
  | _ => none

/-! ## Coercion helpers (src/processor/process_dbf.py lines 17-35)

`clean_text(val)` returns `str(val).strip()` when `pd.notna(val)` holds
and the stripped string is truthy (non-empty), else `None`.

`clean_date(val)` returns `None` when `pd.isna(val)` or the stripped
string is empty; otherwise it parses with
`pd.to_datetime(val, errors='coerce')` and returns `parsed.date()` when
the parse produced a timestamp, `None` otherwise; any exception is
swallowed into `None`.

`clean_numeric(val)` returns `None` when `pd.isna(val)` or the stripped
string is empty; otherwise it evaluates
`float(str(val).replace(',', '').strip())`, and any exception (an
unparseable string) is swallowed into `None`. -/

def clean_text : RawValue → Option String
  | .na => none
  | .str s => if strTrim s = "" then none else some (strTrim s)

def clean_date : RawValue → Option Date
  | .na => none
  | .str s =>
    if strTrim s = "" then none
    else
      match pdToDatetime s with
      | some parsed => some parsed.date
      | none => none

def clean_numeric : RawValue → Option Rat
  | .na => none
  | .str s =>
    if strTrim s = "" then none
    else pyFloat (strTrim (stripCommas s))

/-- A raw value is blank when it is missing or its string strips to
empty: exactly the guard shared by the three cleaning helpers. -/
def RawValue.isBlank : RawValue → Bool
  | .na => true
  | .str s => strTrim s = ""

/-- C7: the coercion helpers are total and null-safe.  Every blank input
(missing, empty, or whitespace-only) coerces to `none` under all three
helpers; a non-blank string whose numeric parse fails coerces to `none`
(the `except` clause swallows the `ValueError`, so nothing is raised);
a non-blank string whose date parse fails coerces to `none`;
`clean_numeric` hands the parser exactly the input with thousands-
separator commas removed; and `clean_date` returns the `.date` projection
of whatever timestamp the parser produced, discarding the time-of-day.
Totality itself is by construction: the helpers are Lean functions into
`Option`, mirroring the Python bodies that catch every exception. -/
theorem C7_coercion_total_null_safe :
    (∀ v : RawValue, v.isBlank = true →
      clean_text v = none ∧ clean_date v = none ∧ clean_numeric v = none) ∧
    (∀ s : String, pyFloat (strTrim (stripCommas s)) = none →
      clean_numeric (.str s) = none) ∧
    (∀ s : String, pdToDatetime s = none → clean_date (.str s) = none) ∧
    (∀ s : String, strTrim s ≠ "" →
      clean_numeric (.str s) = pyFloat (strTrim (stripCommas s))) ∧
    (∀ (s : String) (ts : PdTimestamp), strTrim s ≠ "" → pdToDatetime s = some ts →
      clean_date (.str s) = some ts.date) := by
  refine ⟨?_, ?_, ?_, ?_, ?_⟩
  · intro v hv
    cases v with
    | na => exact ⟨rfl, rfl, rfl⟩
    | str s =>
      simp only [RawValue.isBlank, decide_eq_true_eq] at hv
      exact ⟨by simp [clean_text, hv], by simp [clean_date, hv], by simp [clean_numeric, hv]⟩
  · intro s hs
    by_cases h : strTrim s = "" <;> simp [clean_numeric, h, hs]
  · intro s hs
    by_cases h : strTrim s = "" <;> simp [clean_date, h, hs]
  · intro s hs
    simp [clean_numeric, hs]
  · intro s ts hs hts
    simp [clean_date, hs, hts]

/-- Witness for C7 at concrete inputs: a whitespace-only string, the
unparseable numeric string `"abc"`, the unparseable date `"nonsense"`,
the comma-separated numeral `"1,234.50"`, and a date-with-time string
whose time-of-day is dropped. -/
theorem C7_coercion_total_null_safe_witness :
    (clean_text (.str "   ") = none ∧ clean_date (.str "   ") = none ∧
      clean_numeric (.str "   ") = none) ∧
    clean_numeric (.str "abc") = none ∧
    clean_date (.str "nonsense") = none ∧
    clean_numeric (.str "1,234.50") = pyFloat "1234.50" ∧
    clean_date (.str "2024-01-02 10:30:05") =
      some (PdTimestamp.mk ⟨2024, 1, 2⟩ 37805).date := by
  refine ⟨C7_coercion_total_null_safe.1 (.str "   ") (by decide),
    C7_coercion_total_null_safe.2.1 "abc" (by decide),
    C7_coercion_total_null_safe.2.2.1 "nonsense" (by decide),
    C7_coercion_total_null_safe.2.2.2.1 "1,234.50" (by decide),
    C7_coercion_total_null_safe.2.2.2.2 "2024-01-02 10:30:05" ⟨⟨2024, 1, 2⟩, 37805⟩
      (by decide) (by decide)⟩

/-! ## Idempotency tracker
(src/processor/email_dbf_download_handler.py lines 20-46)

The tracker keeps an in-memory Python set of document keys, persisted as
a JSON list in `processed_files.json`.  The set is modelled as a
`Finset String`; persistence (`save_processed_files`) writes
`list(processed_files)`, i.e. the same set, so the state is the set. -/

/-- The possible states of the persisted `processed_files.json` file, as
`load_processed_files` can encounter them: absent, present but
unreadable (the `open`/read raises), present but not valid JSON
(`json.load` raises), or a readable JSON list of keys. -/
inductive ProcessedLog where
  | missing : ProcessedLog
  | unreadable : ProcessedLog
  | invalidJson : ProcessedLog
  | valid : List String → ProcessedLog
deriving DecidableEq, Repr

/-- `load_processed_files`: when the file does not exist, return
`set()`; when reading or parsing raises, the exception is caught, logged
("starting fresh") and `set()` is returned; otherwise return
`set(json.load(f))`. -/
def load_processed_files : ProcessedLog → Finset String
  | .missing => ∅
  | .unreadable => ∅
  | .invalidJson => ∅
  | .valid keys => keys.toFinset

/-- `is_already_processed(file_key, processed_files)`: membership test. -/
def is_already_processed (file_key : String) (processed_files : Finset String) : Bool :=
  file_key ∈ processed_files

/-- `mark_as_processed(file_key, processed_files)`: add the key to the
set (and persist the set; the persisted content is `list` of the same
set, so the returned set is the whole state). -/
def mark_as_processed (file_key : String) (processed_files : Finset String) : Finset String :=
  insert file_key processed_files

/-- C9: a key never marked is reported unprocessed; after marking a key
it is reported processed; and marking the same key twice leaves the
processed set exactly as after the first marking (idempotence). -/
theorem C9_tracker_mark_idempotent :
    (∀ (k : String) (s : Finset String), k ∉ s → is_already_processed k s = false) ∧
    (∀ (k : String) (s : Finset String),
      is_already_processed k (mark_as_processed k s) = true) ∧
    (∀ (k : String) (s : Finset String),
      mark_as_processed k (mark_as_processed k s) = mark_as_processed k s) := by
  refine ⟨?_, ?_, ?_⟩
  · intro k s hk
    simp [is_already_processed, hk]
  · intro k s
    simp [is_already_processed, mark_as_processed]
  · intro k s
    simp [mark_as_processed, Finset.insert_idem]

/-- Witness for C9 at a concrete key and set. -/
theorem C9_tracker_mark_idempotent_witness :
    is_already_processed "report.zip_Subject" ∅ = false ∧
    is_already_processed "report.zip_Subject"
      (mark_as_processed "report.zip_Subject" ∅) = true ∧
    mark_as_processed "report.zip_Subject"
      (mark_as_processed "report.zip_Subject" ∅) =
      mark_as_processed "report.zip_Subject" ∅ :=
  ⟨C9_tracker_mark_idempotent.1 "report.zip_Subject" ∅ (by decide),
    C9_tracker_mark_idempotent.2.1 "report.zip_Subject" ∅,
    C9_tracker_mark_idempotent.2.2 "report.zip_Subject" ∅⟩

/-- C10: loading the idempotency state from a missing, unreadable or
invalid-JSON log yields the empty set (the exception is caught, never
propagated), so every key is subsequently reported as never seen; a
readable log yields the set of its keys. -/
theorem C10_load_processed_files_resets_on_bad_log :
    (∀ log : ProcessedLog, (∀ keys, log ≠ ProcessedLog.valid keys) →
      load_processed_files log = ∅ ∧
      ∀ k, is_already_processed k (load_processed_files log) = false) ∧
    (∀ keys, load_processed_files (ProcessedLog.valid keys) = keys.toFinset) := by
  constructor
  · intro log hlog
    cases log with
    | valid keys => exact absurd rfl (hlog keys)
    | missing => exact ⟨rfl, fun k => by simp [is_already_processed, load_processed_files]⟩
    | unreadable => exact ⟨rfl, fun k => by simp [is_already_processed, load_processed_files]⟩
    | invalidJson => exact ⟨rfl, fun k => by simp [is_already_processed, load_processed_files]⟩
  · intro keys
    rfl

/-- Witness for C10: the invalid-JSON log loads as the empty set and a
previously handled key reads as never seen. -/
theorem C10_load_processed_files_resets_on_bad_log_witness :
    load_processed_files ProcessedLog.invalidJson = ∅ ∧
    is_already_processed "old.zip_Subject"
      (load_processed_files ProcessedLog.invalidJson) = false := by
  have h := C10_load_processed_files_resets_on_bad_log.1 ProcessedLog.invalidJson
    (fun keys h => by cases h)
  exact ⟨h.1, h.2 "old.zip_Subject"⟩

/-! ## Archive extractor
(src/processor/email_dbf_download_handler.py lines 63-72) -/

/-- `extract_zip(zip_path, extract_to, password)`.  The pyzipper call
`AESZipFile(zip_path)` / `extractall(extract_to)` is modelled by its
outcome: `.ok ()` when extraction succeeded, `.error msg` when the
library raised (bad password, corrupt container, I/O failure).  The
Python body wraps the attempt in `try`/`except Exception`, returning
`True` on success and `False` (after logging) on any exception, so the
function itself never raises: its result is always `.ok`. -/
def extract_zip (attempt : Except String Unit) : Except String Bool :=
  match attempt with
  | .ok _ => .ok true
  | .error _ => .ok false

/-- C8: for every outcome of the underlying extraction attempt,
`extract_zip` returns a boolean normally (never propagates the
exception past its boundary), returns `false` on every failing attempt,
and returns `true` only when the extraction succeeded. -/
theorem C8_extract_zip_returns_bool_never_raises :
    (∀ attempt : Except String Unit, ∃ b : Bool, extract_zip attempt = .ok b) ∧
    (∀ msg : String, extract_zip (.error msg) = .ok false) ∧
    (∀ attempt : Except String Unit,
      extract_zip attempt = .ok true ↔ attempt = .ok ()) := by
  refine ⟨?_, fun _ => rfl, ?_⟩
  · intro attempt
    cases attempt with
    | ok u => exact ⟨true, rfl⟩
    | error e => exact ⟨false, rfl⟩
  · intro attempt
    cases attempt with
    | ok u => simp [extract_zip]
    | error e => simp [extract_zip]

/-! ## Dispatch router (src/main.py lines 25-48) -/

/-- `SUBJECT_TABLE_MAP`, in the dict's insertion order. -/
def SUBJECT_TABLE_MAP : List (String × String) :=
  [("wbr22", "cam_aum_wbr22"),
   ("wbr2c", "cam_inv_wbr2c"),
   ("wbr49", "cam_sip_wbr49"),
   ("wbr5", "cam_sip_wbr5"),
   ("wbr9c", "cam_investor_kyc_status_wbr9c"),
   ("wbr9", "cam_investor_details_wbr9"),
   ("wbr2", "cam_investor_trxn_wbr2"),
   ("wbr77", "cam_brokerage_wbr77"),
   ("wbcum", "kfintech_client_aum"),
   ("wbtrn", "kafintech_trxn_report"),
   ("wbmst", "kfintech_investor_master"),
   ("wbbrok", "kfintech_brokerage")]

/-- One insertion step of a stable sort by decreasing code length:
`x` is placed before the first element whose code is not longer than
`x`'s.  Elements already in the list came later in the original order,
so placing `x` before equal-length ones preserves stability, exactly as
Python's stable `sorted(..., key=lambda x: -len(x[0]))`. -/
def insertByLenDesc (x : String × String) :
    List (String × String) → List (String × String)
  | [] => [x]
  | y :: ys =>
    if y.1.length ≤ x.1.length then x :: y :: ys else y :: insertByLenDesc x ys

/-- Model of `sorted(SUBJECT_TABLE_MAP.items(), key=lambda x: -len(x[0]))`:
stable sort by decreasing code length. -/
def pySortByLenDesc (l : List (String × String)) : List (String × String) :=
  l.foldr insertByLenDesc []

/-- The `for code, table in sorted(...)` loop body: return the first
pair whose lower-cased code occurs in the lower-cased subject. -/
def findCode (subject_lower : String) :
    List (String × String) → Option (String × String)
  | [] => none
  | (code, table) :: rest =>
    if strContains subject_lower (strLower code) then some (code, table)
    else findCode subject_lower rest

/-- `get_table_name_from_subject(subject)`: lower-case the subject,
scan the table sorted by decreasing code length, return the matched
table name or `None`. -/
def get_table_name_from_subject (subject : String) : Option String :=
  (findCode (strLower subject) (pySortByLenDesc SUBJECT_TABLE_MAP)).map (·.2)

theorem mem_insertByLenDesc {x p : String × String}
    {l : List (String × String)} :
    p ∈ insertByLenDesc x l ↔ p = x ∨ p ∈ l := by
  induction l with
  | nil => simp [insertByLenDesc]
  | cons y ys ih =>
    by_cases h : y.1.length ≤ x.1.length
    · simp [insertByLenDesc, h]
    · simp only [insertByLenDesc, if_neg h, List.mem_cons, ih]
      tauto

theorem mem_pySortByLenDesc {p : String × String}
    {l : List (String × String)} :
    p ∈ pySortByLenDesc l ↔ p ∈ l := by
  induction l with
  | nil => simp [pySortByLenDesc]
  | cons x xs ih =>
    simp only [pySortByLenDesc, List.foldr_cons] at *
    rw [mem_insertByLenDesc, ih, List.mem_cons]

theorem findCode_eq_none_iff {s : String} {l : List (String × String)} :
    findCode s l = none ↔ ∀ p ∈ l, strContains s (strLower p.1) = false := by
  induction l with
  | nil => simp [findCode]
  | cons q qs ih =>
    obtain ⟨code, table⟩ := q
    by_cases h : strContains s (strLower code) = true
    · simp [findCode, h]
    · simp only [Bool.not_eq_true] at h
      simp [findCode, h, ih]

theorem findCode_isSome_of_mem {s : String} {l : List (String × String)}
    {p : String × String} (hp : p ∈ l)
    (hmatch : strContains s (strLower p.1) = true) :
    ∃ q ∈ l, findCode s l = some q ∧ strContains s (strLower q.1) = true := by
  induction l with
  | nil => cases hp
  | cons r rs ih =>
    obtain ⟨code, table⟩ := r
    by_cases h : strContains s (strLower code) = true
    · exact ⟨(code, table), List.mem_cons_self _ _, by simp [findCode, h], h⟩
    · simp only [Bool.not_eq_true] at h
      rcases List.mem_cons.mp hp with rfl | hp'
      · rw [hmatch] at h; cases h
      · obtain ⟨q, hq, hfind, hqm⟩ := ih hp'
        exact ⟨q, List.mem_cons_of_mem _ hq, by simp [findCode, h, hfind], hqm⟩

theorem findCode_first_is_longest {s : String} {l : List (String × String)}
    (hsort : l.Pairwise (fun a b => b.1.length ≤ a.1.length))
    {p q : String × String} (hp : p ∈ l)
    (hmatch : strContains s (strLower p.1) = true)
    (hfind : findCode s l = some q) : p.1.length ≤ q.1.length := by
  induction l with
  | nil => cases hp
  | cons r rs ih =>
    obtain ⟨hr, hrs⟩ := List.pairwise_cons.mp hsort
    by_cases h : strContains s (strLower r.1) = true
    · have hq : q = r := by
        obtain ⟨code, table⟩ := r
        simp only [findCode, h, if_pos] at hfind
        exact (Option.some.injEq _ _ ▸ hfind).symm
      subst hq
      rcases List.mem_cons.mp hp with rfl | hp'
      · exact le_refl _
      · exact hr p hp'
    · simp only [Bool.not_eq_true] at h
      have hfind' : findCode s rs = some q := by
        obtain ⟨code, table⟩ := r
        simpa [findCode, h] using hfind
      rcases List.mem_cons.mp hp with rfl | hp'
      · rw [hmatch] at h; cases h
      · exact ih hrs hp' hfind'

/-- The sorted subject table is pairwise ordered by decreasing code
length. -/
theorem sorted_table_pairwise :
    (pySortByLenDesc SUBJECT_TABLE_MAP).Pairwise
      (fun a b => b.1.length ≤ a.1.length) := by decide

/-- C4: the router matches the fixed code table against the lower-cased
subject by substring containment in decreasing code-length order.  It
returns `None` exactly when no code occurs in the subject; whenever some
code occurs, the answer is the table of an occurring code at least as
long, so a longer code is never shadowed by a shorter one; in
particular a subject containing `"WBR2C"` never resolves to the `wbr2`
table `cam_investor_trxn_wbr2`, and the concrete subject
`"CAMS MF WBR2C Transaction File"` resolves to `cam_inv_wbr2c`. -/
theorem C4_longest_code_routing :
    (∀ subject : String, get_table_name_from_subject subject = none ↔
      ∀ p ∈ SUBJECT_TABLE_MAP, strContains (strLower subject) (strLower p.1) = false) ∧
    (∀ (subject : String) (p : String × String), p ∈ SUBJECT_TABLE_MAP →
      strContains (strLower subject) (strLower p.1) = true →
      ∃ q ∈ SUBJECT_TABLE_MAP, p.1.length ≤ q.1.length ∧
        strContains (strLower subject) (strLower q.1) = true ∧
        get_table_name_from_subject subject = some q.2) ∧
    (∀ subject : String, strContains (strLower subject) "wbr2c" = true →
      get_table_name_from_subject subject ≠ some "cam_investor_trxn_wbr2") ∧
    get_table_name_from_subject "CAMS MF WBR2C Transaction File" =
      some "cam_inv_wbr2c" := by
  have key : ∀ (subject : String) (p : String × String), p ∈ SUBJECT_TABLE_MAP →
      strContains (strLower subject) (strLower p.1) = true →
      ∃ q ∈ SUBJECT_TABLE_MAP, p.1.length ≤ q.1.length ∧
        strContains (strLower subject) (strLower q.1) = true ∧
        get_table_name_from_subject subject = some q.2 := by
    intro subject p hp hm
    obtain ⟨q, hq, hfind, hqm⟩ :=
      findCode_isSome_of_mem (s := strLower subject)
        (mem_pySortByLenDesc.mpr hp) hm
    refine ⟨q, mem_pySortByLenDesc.mp hq,
      findCode_first_is_longest sorted_table_pairwise
        (mem_pySortByLenDesc.mpr hp) hm hfind, hqm, ?_⟩
    simp [get_table_name_from_subject, hfind]
  refine ⟨?_, key, ?_, by decide⟩
  · intro subject
    constructor
    · intro hnone p hp
      have : findCode (strLower subject) (pySortByLenDesc SUBJECT_TABLE_MAP) = none := by
        cases h : findCode (strLower subject) (pySortByLenDesc SUBJECT_TABLE_MAP) with
        | none => rfl
        | some q => simp [get_table_name_from_subject, h] at hnone
      exact findCode_eq_none_iff.mp this p (mem_pySortByLenDesc.mpr hp)
    · intro hall
      have : findCode (strLower subject) (pySortByLenDesc SUBJECT_TABLE_MAP) = none :=
        findCode_eq_none_iff.mpr (fun p hp => hall p (mem_pySortByLenDesc.mp hp))
      simp [get_table_name_from_subject, this]
  · intro subject hsub hres
    have hmem : ("wbr2c", "cam_inv_wbr2c") ∈ SUBJECT_TABLE_MAP := by decide
    have hlow : strLower "wbr2c" = "wbr2c" := by decide
    obtain ⟨q, hq, hlen, hqm, hget⟩ :=
      key subject ("wbr2c", "cam_inv_wbr2c") hmem (by rw [hlow]; exact hsub)
    rw [hget] at hres
    have hq2 : q.2 = "cam_investor_trxn_wbr2" := Option.some.inj hres
    have huniq : ∀ r ∈ SUBJECT_TABLE_MAP,
        r.2 = "cam_investor_trxn_wbr2" → r.1 = "wbr2" := by decide
    have hq1 : q.1 = "wbr2" := huniq q hq hq2
    rw [hq1] at hlen
    exact absurd hlen (by decide)

/-- Witness for C4 at concrete subjects: the no-match case, a matched
code, and the `WBR2C` shadowing example. -/
theorem C4_longest_code_routing_witness :
    get_table_name_from_subject "daily NAV statement" = none ∧
    (∃ q ∈ SUBJECT_TABLE_MAP, ("wbr2", "cam_investor_trxn_wbr2").1.length ≤ q.1.length ∧
      strContains (strLower "Daily WBR2 trxn") (strLower q.1) = true ∧
      get_table_name_from_subject "Daily WBR2 trxn" = some q.2) ∧
    get_table_name_from_subject "mailback WBR2C 2024" ≠
      some "cam_investor_trxn_wbr2" := by
  refine ⟨(C4_longest_code_routing.1 "daily NAV statement").mpr (by decide),
    C4_longest_code_routing.2.1 "Daily WBR2 trxn" ("wbr2", "cam_investor_trxn_wbr2")
      (by decide) (by decide),
    C4_longest_code_routing.2.2.1 "mailback WBR2C 2024" (by decide)⟩

/-! ## Password resolution
(src/processor/email_dbf_download_handler.py lines 174-199)

The mail harvester chooses the archive password from the message:
```
if file_type == "CSVWH":            final_password = b"12121212"
elif "camsonline.com" in body.lower(): final_password = b"123456"
else:
    pass_match = re.search(r'pass\W*([A-Za-z0-9@!#\$%&\*\-_]+)', plain_text, re.I)
    if pass_match: final_password = pass_match.group(1).encode()
    else:          final_password = b"123456"
...
if "click here" in body.lower():
    kfin_match = soup.find('a', string=re.compile(r'Click Here', re.I))
    if kfin_match and kfin_match.has_attr('href'):
        ...
        if not pass_match: final_password = b"Mutual@11"
```
Note `pass_match` is only bound in the `else` branch: when the first or
second branch was taken and the click-here block runs, evaluating
`not pass_match` raises `NameError`, which the per-email handler
swallows.  The model returns `Except` to capture that path. -/

/-- A word character for `re`'s `\w` (so `\W` is its negation):
letters, digits, underscore (ASCII; the bodies handled are ASCII). -/
def isWordChar (c : Char) : Bool :=
  c.isAlphanum || c = '_'

/-- A character of the capture class `[A-Za-z0-9@!#\$%&\*\-_]`. -/
def isPassTokenChar (c : Char) : Bool :=
  c.isAlphanum || c = '@' || c = '!' || c = '#' || c = '$' || c = '%' ||
    c = '&' || c = '*' || c = '-' || c = '_'

/-- Match `\W*([A-Za-z0-9@!#\$%&\*\-_]+)` at the start of `cs`,
backtracking the greedy `\W*` from `k` repetitions downward until at
least one capture-class character follows; returns the greedy capture. -/
def matchPassTail (cs : List Char) : Nat → Option (List Char)
  | 0 =>
    let cap := cs.takeWhile isPassTokenChar
    if cap.isEmpty then none else some cap
  | k + 1 =>
    let cap := (cs.drop (k + 1)).takeWhile isPassTokenChar
    if cap.isEmpty then matchPassTail cs k else some cap

/-- Does `cs` start with the four letters `pass`, case-insensitively? -/
def startsWithPass (cs : List Char) : Bool :=
  (cs.take 4).map lowerChar = ['p', 'a', 's', 's']

/-- Model of the external library call
`re.search(r'pass\W*([A-Za-z0-9@!#\$%&\*\-_]+)', plain_text, re.I)`:
scan left to right for an occurrence of `pass` followed by a greedy
(backtracking) `\W*` and a non-empty greedy run of capture-class
characters; return group 1 of the leftmost match. -/
def searchPassToken : List Char → Option String
  | [] => none
  | c :: rest =>
    if startsWithPass (c :: rest) then
      let tail := (c :: rest).drop 4
      match matchPassTail tail ((tail.takeWhile (fun d => !isWordChar d)).length) with
      | some cap => some (String.mk cap)
      | none => searchPassToken rest
    else searchPassToken rest

/-- `re.search(...)` applied to the plain-text body. -/
def passTokenOf (plain_text : String) : Option String :=
  searchPassToken plain_text.toList

/-- The password chosen for archive extraction, lines 174-199, as a
function of the `File Type` hint (already upper-cased; `""` when the
hint is absent), the HTML body, the plain-text body, and whether a
`Click Here` anchor with an `href` was found.  `.error` is the
`NameError` path described above. -/
def final_password (file_type body plain_text : String)
    (clickLinkFound : Bool) : Except String String :=
  let clickHere := strContains (strLower body) "click here" && clickLinkFound
  if file_type = "CSVWH" then
    if clickHere then .error "NameError: pass_match" else .ok "12121212"
  else if strContains (strLower body) "camsonline.com" then
    if clickHere then .error "NameError: pass_match" else .ok "123456"
  else
    match passTokenOf plain_text with
    | some tok => .ok tok
    | none => if clickHere then .ok "Mutual@11" else .ok "123456"

/-- C3 counterexample: the body `"Files at camsonline.com"` carries the
sender-domain marker and the plain text carries the token
`pass:ABC123`; the file-type hint is absent and there is no click-here
link, yet the chosen password is the domain-based fixed password
`123456`, not the regex-extracted token `ABC123` (which the regex does
extract from this body). -/
theorem C3_counterexample_domain_beats_token :
    final_password "" "Files at camsonline.com" "pass:ABC123" false =
      .ok "123456" ∧
    passTokenOf "pass:ABC123" = some "ABC123" ∧
    ("123456" : String) ≠ "ABC123" := by
  refine ⟨by rfl, by decide, by decide⟩

/-- C3 amended: with the file-type hint absent, the sender-domain
marker takes precedence over the `pass`-prefixed token: a body
containing `camsonline.com` gets the domain-based fixed password
`123456` even when a token is present; the regex-extracted token is
chosen only when the hint and the domain marker are both absent. -/
theorem C3_password_precedence_amended :
    (∀ body plain_text : String,
      strContains (strLower body) "camsonline.com" = true →
      strContains (strLower body) "click here" = false →
      final_password "" body plain_text false = .ok "123456") ∧
    (∀ (body plain_text : String) (tok : String),
      strContains (strLower body) "camsonline.com" = false →
      passTokenOf plain_text = some tok →
      final_password "" body plain_text false = .ok tok) := by
  constructor
  · intro body plain_text hdom hclick
    simp [final_password, hdom, hclick]
  · intro body plain_text tok hdom htok
    simp [final_password, hdom, htok]

/-- Witness for the amended C3 at the counterexample's inputs, plus the
token-wins case with the domain marker absent. -/
theorem C3_password_precedence_amended_witness :
    final_password "" "Files at camsonline.com" "pass:ABC123" false =
      .ok "123456" ∧
    final_password "" "Your file is ready" "pass:ABC123" false =
      .ok "ABC123" :=
  ⟨C3_password_precedence_amended.1 "Files at camsonline.com" "pass:ABC123"
      (by decide) (by decide),
    C3_password_precedence_amended.2 "Your file is ready" "pass:ABC123" "ABC123"
      (by decide) (by decide)⟩

/-! ## Record loader: intra-batch first-wins deduplication

`process_cam_inv_dataframe` (src/processor/process_dbf.py lines 50-99)
and `process_sip_wbr49_dataframe` (src/processor/process_sip.py lines
116-159) run the same inline loop with schema-specific key and row
constructions:
```
values_list, seen_keys, duplicates = [], set(), []
for _, row in df.iterrows():
    key = (...)
    cleaned_row = (...)
    if key in seen_keys: duplicates.append(row)
    else:
        seen_keys.add(key)
        values_list.append(cleaned_row)
```
The loop is embedded once, parameterized by the schema's `key` and
`cleaned_row` constructions, and instantiated per schema below with the
literal constructions of each file. -/

/-- A raw record: `row.get(col)` on a pandas row, returning the missing
value for an absent column. -/
def RawRecord : Type := String → RawValue

/-- Build a concrete record from an association list of columns. -/
def recOf (l : List (String × RawValue)) : RawRecord :=
  fun c => ((l.find? (fun p => p.1 = c)).map (·.2)).getD .na

/-- The loop state `(values_list, seen_keys, duplicates)`. -/
structure DedupState (κ : Type) where
  values_list : List (List CleanedValue)
  seen_keys : Finset κ
  duplicates : List RawRecord

variable {κ : Type} [DecidableEq κ]

/-- One iteration of the dedup loop on one record. -/
def dedupStep (key : RawRecord → κ) (clean : RawRecord → List CleanedValue)
    (st : DedupState κ) (row : RawRecord) : DedupState κ :=
  if key row ∈ st.seen_keys then
    { st with duplicates := st.duplicates ++ [row] }
  else
    { values_list := st.values_list ++ [clean row],
      seen_keys := insert (key row) st.seen_keys,
      duplicates := st.duplicates }

/-- The whole dedup loop from the empty initial state. -/
def dedupRun (key : RawRecord → κ) (clean : RawRecord → List CleanedValue)
    (rows : List RawRecord) : DedupState κ :=
  rows.foldl (dedupStep key clean) ⟨[], ∅, []⟩

/-- Specification-side view of the kept records: iterate in order,
keeping a record iff its key is not in `seen` yet. -/
def keptFrom (key : RawRecord → κ) (seen : Finset κ) : List RawRecord → List RawRecord
  | [] => []
  | r :: rs =>
    if key r ∈ seen then keptFrom key seen rs
    else r :: keptFrom key (insert (key r) seen) rs

/-- Specification-side view of the diverted duplicates. -/
def dupsFrom (key : RawRecord → κ) (seen : Finset κ) : List RawRecord → List RawRecord
  | [] => []
  | r :: rs =>
    if key r ∈ seen then r :: dupsFrom key seen rs
    else dupsFrom key (insert (key r) seen) rs

theorem dedupRun_foldl_eq (key : RawRecord → κ) (clean : RawRecord → List CleanedValue)
    (rows : List RawRecord) (st : DedupState κ) :
    rows.foldl (dedupStep key clean) st =
      ⟨st.values_list ++ (keptFrom key st.seen_keys rows).map clean,
        (keptFrom key st.seen_keys rows).foldl (fun s r => insert (key r) s) st.seen_keys,
        st.duplicates ++ dupsFrom key st.seen_keys rows⟩ := by
  induction rows generalizing st with
  | nil => simp [keptFrom, dupsFrom]
  | cons r rs ih =>
    by_cases h : key r ∈ st.seen_keys
    · simp only [List.foldl_cons, dedupStep, if_pos h, keptFrom, dupsFrom]
      rw [ih]
      simp only [if_pos h]
      simp [List.append_assoc]
    · simp only [List.foldl_cons, dedupStep, if_neg h, keptFrom, dupsFrom]
      rw [ih]
      simp only [if_neg h]
      simp [List.append_assoc, List.foldl_cons]

/-- In `keptFrom`, a record's key never lies in the starting `seen` set. -/
theorem keptFrom_key_not_mem (key : RawRecord → κ) (seen : Finset κ)
    (rows : List RawRecord) :
    ∀ r ∈ keptFrom key seen rows, key r ∉ seen := by
  induction rows generalizing seen with
  | nil => simp [keptFrom]
  | cons r rs ih =>
    by_cases h : key r ∈ seen
    · simpa [keptFrom, h] using ih seen
    · intro q hq
      simp only [keptFrom, if_neg h, List.mem_cons] at hq
      rcases hq with rfl | hq
      · exact h
      · intro hcontra
        exact ih (insert (key r) seen) q hq (Finset.mem_insert_of_mem hcontra)

/-- The keys of the kept records are pairwise distinct. -/
theorem keptFrom_keys_nodup (key : RawRecord → κ) (seen : Finset κ)
    (rows : List RawRecord) :
    ((keptFrom key seen rows).map key).Nodup := by
  induction rows generalizing seen with
  | nil => simp [keptFrom]
  | cons r rs ih =>
    by_cases h : key r ∈ seen
    · simpa [keptFrom, h] using ih seen
    · simp only [keptFrom, if_neg h, List.map_cons, List.nodup_cons]
      refine ⟨?_, ih (insert (key r) seen)⟩
      intro hmem
      obtain ⟨q, hq, hkq⟩ := List.mem_map.mp hmem
      exact keptFrom_key_not_mem key (insert (key r) seen) rs q hq
        (hkq ▸ Finset.mem_insert_self (key r) seen)

/-- First-wins: among the records with key `k`, exactly the first is
kept (none when `k` was already seen). -/
theorem keptFrom_filter_key (key : RawRecord → κ) (seen : Finset κ)
    (rows : List RawRecord) (k : κ) :
    (keptFrom key seen rows).filter (fun r => decide (key r = k)) =
      if k ∈ seen then []
      else (rows.filter (fun r => decide (key r = k))).take 1 := by
  induction rows generalizing seen with
  | nil => simp [keptFrom]
  | cons r rs ih =>
    by_cases h : key r ∈ seen
    · by_cases hk : key r = k
      · subst hk
        simp only [keptFrom, if_pos h, ih, if_pos h, List.filter_cons, decide_True]
      · have hk' : ¬ k = key r := fun h' => hk h'.symm
        simp only [keptFrom, if_pos h, ih, List.filter_cons]
        simp [hk]
    · by_cases hk : key r = k
      · subst hk
        simp only [keptFrom, if_neg h, List.filter_cons, decide_True, if_pos]
        rw [ih (insert (key r) seen)]
        simp [if_neg h, Finset.mem_insert_self]
      · have hk' : ¬ k = key r := fun h' => hk h'.symm
        simp only [keptFrom, if_neg h, List.filter_cons]
        rw [ih (insert (key r) seen)]
        simp only [Finset.mem_insert, hk', false_or]
        simp [hk]

/-- The diverted duplicates with key `k` are all its occurrences except
the kept first one. -/
theorem dupsFrom_filter_key (key : RawRecord → κ) (seen : Finset κ)
    (rows : List RawRecord) (k : κ) :
    (dupsFrom key seen rows).filter (fun r => decide (key r = k)) =
      if k ∈ seen then rows.filter (fun r => decide (key r = k))
      else (rows.filter (fun r => decide (key r = k))).drop 1 := by
  induction rows generalizing seen with
  | nil => simp [dupsFrom]
  | cons r rs ih =>
    by_cases h : key r ∈ seen
    · by_cases hk : key r = k
      · subst hk
        simp only [dupsFrom, if_pos h, List.filter_cons, decide_True, if_pos]
        rw [ih seen]
        simp [if_pos h]
      · simp only [dupsFrom, if_pos h, List.filter_cons]
        simp [hk, ih seen]
    · by_cases hk : key r = k
      · subst hk
        simp only [dupsFrom, if_neg h, List.filter_cons, decide_True]
        rw [ih (insert (key r) seen)]
        simp [if_neg h, Finset.mem_insert_self]
      · have hk' : ¬ k = key r := fun h' => hk h'.symm
        simp only [dupsFrom, if_neg h, List.filter_cons]
        rw [ih (insert (key r) seen)]
        simp only [Finset.mem_insert, hk', false_or]
        simp [hk]

/-! ## Python dict comprehension (the "final dedup" pass)

`unique_map = { key(row): row for row in values_list }` followed by
`list(unique_map.values())`: a Python dict keeps the position of the
first insertion of a key and the value of the last. -/

variable {α : Type}

/-- `d[k] = v` on a Python dict kept as an insertion-ordered
association list. -/
def pyDictInsert (k : κ) (v : α) :
    List (κ × α) → List (κ × α)
  | [] => [(k, v)]
  | (k', v') :: rest =>
    if k' = k then (k', v) :: rest else (k', v') :: pyDictInsert k v rest

/-- The dict comprehension over a list of key-value pairs. -/
def pyDictOfPairs (kv : List (κ × α)) : List (κ × α) :=
  kv.foldl (fun d p => pyDictInsert p.1 p.2 d) []

/-- `list(d.values())`. -/
def pyDictValues (kv : List (κ × α)) : List α :=
  (pyDictOfPairs kv).map (·.2)

theorem pyDictInsert_of_not_mem {k : κ} {v : α}
    {d : List (κ × α)} (h : k ∉ d.map (·.1)) :
    pyDictInsert k v d = d ++ [(k, v)] := by
  induction d with
  | nil => rfl
  | cons p rest ih =>
    obtain ⟨k', v'⟩ := p
    simp only [List.map_cons, List.mem_cons] at h
    push_neg at h
    obtain ⟨h1, h2⟩ := h
    simp only [pyDictInsert, if_neg (Ne.symm h1), List.cons_append]
    rw [ih h2]

theorem pyDictOfPairs_nodup_aux (kv : List (κ × α))
    (hnd : (kv.map (·.1)).Nodup) :
    ∀ acc : List (κ × α), (∀ p ∈ kv, p.1 ∉ acc.map (·.1)) →
      kv.foldl (fun d p => pyDictInsert p.1 p.2 d) acc = acc ++ kv := by
  induction kv with
  | nil => simp
  | cons p rest ih =>
    intro acc hdisj
    simp only [List.map_cons, List.nodup_cons] at hnd
    simp only [List.foldl_cons]
    rw [pyDictInsert_of_not_mem (hdisj p (List.mem_cons_self p rest))]
    rw [ih hnd.2 (acc ++ [p]) ?_]
    · simp
    · intro q hq
      simp only [List.map_append, List.mem_append, List.map_cons,
        List.map_nil, List.mem_singleton]
      push_neg
      refine ⟨hdisj q (List.mem_cons_of_mem p hq), ?_⟩
      intro he
      exact hnd.1 (he ▸ List.mem_map_of_mem (·.1) hq)

/-- When the keys are pairwise distinct, the dict pass is the identity:
it returns exactly the values in their original order. -/
theorem pyDictValues_of_nodup (kv : List (κ × α))
    (hnd : (kv.map (·.1)).Nodup) :
    pyDictValues kv = kv.map (·.2) := by
  unfold pyDictValues pyDictOfPairs
  rw [pyDictOfPairs_nodup_aux kv hnd [] (by simp)]
  simp

/-! ## Batched commit loops

`BATCH_SIZE = 500` in every processor module.
`[lst[i:i+BATCH_SIZE] for i in range(0, len(lst), BATCH_SIZE)]` splits
the list into consecutive batches; for an empty list it yields no
batches.  A batch commit (`execute_values` + `conn.commit()`) is
modelled as failing exactly when some row of the batch violates a
constraint, per the failure oracle `fails`; a single-row commit fails
exactly when that row violates. -/

/-- Fuel-driven chunking; `fuel` bounds the number of batches.  With
`fuel = l.length` and a positive `n` this is exactly Python's slicing
loop. -/
def pyChunksGo (n : Nat) : Nat → List α → List (List α)
  | 0, _ => []
  | _, [] => []
  | fuel + 1, x :: xs => ((x :: xs).take n) :: pyChunksGo n fuel ((x :: xs).drop n)

/-- `[lst[i:i+n] for i in range(0, len(lst), n)]` for `n ≥ 1`. -/
def pyChunks (n : Nat) (l : List α) : List (List α) :=
  pyChunksGo n l.length l

theorem pyChunksGo_flatten (n : Nat) (hn : 1 ≤ n) (fuel : Nat) :
    ∀ l : List α, l.length ≤ fuel → (pyChunksGo n fuel l).flatten = l := by
  induction fuel with
  | zero =>
    intro l hl
    have : l = [] := List.eq_nil_of_length_eq_zero (Nat.le_zero.mp hl)
    subst this
    rfl
  | succ fuel ih =>
    intro l hl
    cases l with
    | nil => rfl
    | cons x xs =>
      simp only [pyChunksGo, List.flatten_cons]
      rw [ih ((x :: xs).drop n) ?_, List.take_append_drop]
      rw [List.length_drop]
      have : (x :: xs).length = xs.length + 1 := rfl
      omega

/-- The batches of `pyChunks` concatenate back to the original list. -/
theorem pyChunks_flatten (n : Nat) (hn : 1 ≤ n) (l : List α) :
    (pyChunks n l).flatten = l :=
  pyChunksGo_flatten n hn l.length l (le_refl _)

/-- The insert loop of `process_kfintech_trxn_dataframe`
(src/processor/kafintech_trxn_report.py lines 145-165): try the whole
batch; on failure roll back and insert the batch's rows one by one,
counting each committed row in `total_inserted` and logging (counting,
in the model) each row that still fails; the loop always continues to
the next batch.  Returns `(total_inserted, row-level failures logged)`. -/
def insert_batches_with_row_retry (fails : α → Bool)
    (batches : List (List α)) : Nat × Nat :=
  batches.foldl
    (fun acc batch =>
      if batch.any fails then
        (acc.1 + (batch.filter (fun r => !fails r)).length,
          acc.2 + (batch.filter fails).length)
      else (acc.1 + batch.length, acc.2))
    (0, 0)

/-- The insert loop of `process_cam_inv_dataframe`
(src/processor/process_dbf.py lines 124-130), also the shape of
`process_sip_wbr49_dataframe`'s loop (src/processor/process_sip.py
lines 223-229): each batch is committed in turn with **no** row-level
retry; the first failing batch raises out of the loop into the
function's `except` clause, so later batches are never attempted and
the failing batch contributes nothing.  Returns the rows that remain
committed. -/
def insert_batches_no_retry (fails : α → Bool) : List (List α) → Nat
  | [] => 0
  | batch :: rest =>
    if batch.any fails then 0
    else batch.length + insert_batches_no_retry fails rest

theorem insert_batches_with_row_retry_aux (fails : α → Bool)
    (batches : List (List α)) :
    ∀ acc : Nat × Nat,
      batches.foldl
        (fun acc batch =>
          if batch.any fails then
            (acc.1 + (batch.filter (fun r => !fails r)).length,
              acc.2 + (batch.filter fails).length)
          else (acc.1 + batch.length, acc.2)) acc =
      (acc.1 + (batches.flatten.filter (fun r => !fails r)).length,
        acc.2 + (batches.flatten.filter fails).length) := by
  induction batches with
  | nil => simp
  | cons batch rest ih =>
    intro acc
    simp only [List.foldl_cons, List.flatten_cons, List.filter_append,
      List.length_append]
    by_cases h : batch.any fails
    · rw [if_pos h, ih]
      simp [Nat.add_assoc]
    · rw [if_neg h, ih]
      have hall : ∀ r ∈ batch, fails r = false := by
        intro r hr
        by_contra hc
        exact h (List.any_eq_true.mpr ⟨r, hr, by simpa using hc⟩)
      have h1 : batch.filter (fun r => !fails r) = batch :=
        List.filter_eq_self.mpr (fun r hr => by simp [hall r hr])
      have h2 : batch.filter fails = [] :=
        List.filter_eq_nil_iff.mpr (fun r hr => by simp [hall r hr])
      rw [h1, h2]
      simp [Nat.add_assoc]

/-- Counting lemma: over any batching, the retry loop commits exactly
the non-violating rows and logs exactly the violating ones. -/
theorem insert_batches_with_row_retry_eq (fails : α → Bool)
    (batches : List (List α)) :
    insert_batches_with_row_retry fails batches =
      ((batches.flatten.filter (fun r => !fails r)).length,
        (batches.flatten.filter fails).length) := by
  unfold insert_batches_with_row_retry
  rw [insert_batches_with_row_retry_aux]
  simp

/-- Counting lemma: the no-retry loop commits exactly the batches
strictly before the first failing one. -/
theorem insert_batches_no_retry_eq (fails : α → Bool)
    (batches : List (List α)) :
    insert_batches_no_retry fails batches =
      ((batches.takeWhile (fun b => !b.any fails)).flatten).length := by
  induction batches with
  | nil => rfl
  | cons batch rest ih =>
    by_cases h : batch.any fails
    · simp [insert_batches_no_retry, h, List.takeWhile_cons]
    · simp [insert_batches_no_retry, h, List.takeWhile_cons, ih]

/-! ## `process_cam_inv_dataframe`
(src/processor/process_dbf.py lines 37-149) -/

/-- The intra-file dedup key, lines 54-58:
`(clean_text(row.get('folio_no')), clean_text(row.get('trxnno')),
clean_date(row.get('traddate')))`. -/
abbrev CamInvKey := Option String × Option String × Option Date

def cam_inv_key (row : RawRecord) : CamInvKey :=
  (clean_text (row "folio_no"), clean_text (row "trxnno"), clean_date (row "traddate"))

/-- The `cleaned_row` tuple of lines 59-83, in source order; positions
1, 6 and 11 are `folio_no`, `trxnno` and `traddate`. -/
def cam_inv_cleaned_row (source_file : String) (now : Nat)
    (row : RawRecord) : List CleanedValue :=
  [.text (clean_text (row "amc_code")), .text (clean_text (row "folio_no")),
   .text (clean_text (row "prodcode")), .text (clean_text (row "scheme")),
   .text (clean_text (row "inv_name")), .text (clean_text (row "trxntype")),
   .text (clean_text (row "trxnno")), .text (clean_text (row "trxnmode")),
   .text (clean_text (row "trxnstat")), .text (clean_text (row "usercode")),
   .text (clean_text (row "usrtrxno")), .date (clean_date (row "traddate")),
   .date (clean_date (row "postdate")), .num (clean_numeric (row "purprice")),
   .num (clean_numeric (row "units")), .num (clean_numeric (row "amount")),
   .text (clean_text (row "brokcode")), .text (clean_text (row "subbrok")),
   .num (clean_numeric (row "brokperc")), .num (clean_numeric (row "brokcomm")),
   .text (clean_text (row "altfolio")), .date (clean_date (row "rep_date")),
   .text (clean_text (row "time1")), .text (clean_text (row "trxnsubtyp")),
   .num (clean_numeric (row "applicatio")), .num (clean_numeric (row "trxn_natur")),
   .text (clean_text (row "tax")), .text (clean_text (row "total_tax")),
   .text (clean_text (row "te_15h")), .text (clean_text (row "micr_no")),
   .text (clean_text (row "remarks")), .text (clean_text (row "swflag")),
   .text (clean_text (row "old_folio")), .text (clean_text (row "seq_no")),
   .text (clean_text (row "reinvest_f")), .text (clean_text (row "mult_brok")),
   .num (clean_numeric (row "stt")), .text (clean_text (row "location")),
   .text (clean_text (row "scheme_typ")), .text (clean_text (row "tax_status")),
   .num (clean_numeric (row "load")), .text (clean_text (row "scanrefno")),
   .text (clean_text (row "pan")), .text (clean_text (row "inv_iin")),
   .text (clean_text (row "targ_src_s")), .text (clean_text (row "trxn_type_")),
   .text (clean_text (row "ticob_trty")), .text (clean_text (row "ticob_trno")),
   .date (clean_date (row "ticob_post")), .text (clean_text (row "dp_id")),
   .num (clean_numeric (row "trxn_charg")), .num (clean_numeric (row "eligib_amt")),
   .text (clean_text (row "src_of_txn")), .text (clean_text (row "trxn_suffi")),
   .text (clean_text (row "siptrxnno")), .text (clean_text (row "ter_locati")),
   .text (clean_text (row "euin")), .text (clean_text (row "euin_valid")),
   .text (clean_text (row "euin_opted")), .text (clean_text (row "sub_brk_ar")),
   .text (clean_text (row "exch_dc_fl")), .text (clean_text (row "src_brk_co")),
   .text (clean_text (row "folio_old")), .text (clean_text (row "scheme_fol")),
   .text (clean_text (row "amc_ref_no")), .num (clean_numeric (row "stamp_duty")),
   .file source_file, .stamp now, .stamp now]

/-- The key of the "final dedup" dict pass, line 98:
`(row[1], row[6], row[11])` on the cleaned tuple. -/
def cam_inv_dict_key (r : List CleanedValue) :
    Option CleanedValue × Option CleanedValue × Option CleanedValue :=
  (r.get? 1, r.get? 6, r.get? 11)

/-- How a raw-record key appears as a dict key of its cleaned row. -/
def camInvEmbedKey (k : CamInvKey) :
    Option CleanedValue × Option CleanedValue × Option CleanedValue :=
  (some (.text k.1), some (.text k.2.1), some (.date k.2.2))

theorem cam_inv_dict_key_cleaned (source_file : String) (now : Nat)
    (row : RawRecord) :
    cam_inv_dict_key (cam_inv_cleaned_row source_file now row) =
      camInvEmbedKey (cam_inv_key row) := rfl

theorem camInvEmbedKey_injective : Function.Injective camInvEmbedKey := by
  intro a b h
  obtain ⟨a1, a2, a3⟩ := a
  obtain ⟨b1, b2, b3⟩ := b
  simp only [camInvEmbedKey, Prod.mk.injEq, Option.some.injEq,
    CleanedValue.text.injEq, CleanedValue.date.injEq] at h
  simp [h.1, h.2.1, h.2.2]

/-- The dedup loop of lines 50-88. -/
def cam_inv_dedup (source_file : String) (now : Nat)
    (rows : List RawRecord) : DedupState CamInvKey :=
  dedupRun cam_inv_key (cam_inv_cleaned_row source_file now) rows

/-- Lines 97-99: `deduped_values_list`. -/
def cam_inv_deduped (source_file : String) (now : Nat)
    (rows : List RawRecord) : List (List CleanedValue) :=
  pyDictValues ((cam_inv_dedup source_file now rows).values_list.map
    (fun r => (cam_inv_dict_key r, r)))

/-- Observable outcome of one `process_cam_inv_dataframe` invocation:
rows remaining committed in the target table, the rows appended to the
per-day `summary.csv` (date, source file, inserted-or-updated count,
in-file duplicate count), and the Python return value. -/
structure CamInvRun where
  committed : Nat
  summaryLines : List (String × String × Nat × Nat)
  ret : Option Nat
deriving DecidableEq, Repr

/-- `process_cam_inv_dataframe(df, source_file, table_name)`, lines
37-149, as a function of the clock (`today`, `now`), the
constraint-violation oracle `fails`, and the record list.  When the
deduplicated batch is empty the function logs and returns (returning
`None`); otherwise it commits batches of 500 with no row-level retry
(the first failing batch raises into the `except` clause, skipping the
report and summary writes), and on full success writes one summary
line.  Every path returns `None`: the function has no `return` with a
value.  (Report-file writes and `os.makedirs` are I/O noise not
modelled; the summary header line depends on file state and is not
counted as a data line.) -/
def process_cam_inv_dataframe (today source_file : String) (now : Nat)
    (fails : List CleanedValue → Bool) (rows : List RawRecord) : CamInvRun :=
  let st := cam_inv_dedup source_file now rows
  let deduped := cam_inv_deduped source_file now rows
  if deduped = [] then ⟨0, [], none⟩
  else
    let batches := pyChunks 500 deduped
    let committed := insert_batches_no_retry fails batches
    if batches.any (fun b => b.any fails) then ⟨committed, [], none⟩
    else ⟨committed, [(today, source_file, committed, st.duplicates.length)], none⟩

/-! ## `process_sip_wbr49_dataframe`
(src/processor/process_sip.py lines 95-257) -/

/-- The intra-file dedup key, lines 120-125:
`(clean_text(row.get('folio_no')), clean_numeric(row.get('auto_trno')),
clean_date(row.get('from_date')))`. -/
abbrev SipKey := Option String × Option Rat × Option Date

def sip_key (row : RawRecord) : SipKey :=
  (clean_text (row "folio_no"), clean_numeric (row "auto_trno"),
    clean_date (row "from_date"))

/-- The `cleaned_row` tuple of lines 126-143, in source order;
positions 2, 5 and 7 are `folio_no`, `auto_trno` and `from_date`. -/
def sip_cleaned_row (source_file : String) (now : Nat)
    (row : RawRecord) : List CleanedValue :=
  [.text (clean_text (row "product")), .text (clean_text (row "scheme")),
   .text (clean_text (row "folio_no")), .text (clean_text (row "inv_name")),
   .text (clean_text (row "aut_trntyp")), .num (clean_numeric (row "auto_trno")),
   .num (clean_numeric (row "auto_amoun")), .date (clean_date (row "from_date")),
   .date (clean_date (row "to_date")), .date (clean_date (row "cease_date")),
   .text (clean_text (row "periodicit")), .num (clean_numeric (row "period_day")),
   .text (clean_text (row "inv_iin")), .text (clean_text (row "payment_mo")),
   .text (clean_text (row "target_sch")), .date (clean_date (row "reg_date")),
   .text (clean_text (row "subbroker")), .text (clean_text (row "remarks")),
   .text (clean_text (row "top_up_frq")), .num (clean_numeric (row "top_up_amt")),
   .text (clean_text (row "ac_type")), .text (clean_text (row "bank")),
   .text (clean_text (row "branch")), .text (clean_text (row "instrm_no")),
   .text (clean_text (row "cheq_micr_")), .text (clean_text (row "ac_holder_")),
   .text (clean_text (row "pan")), .text (clean_text (row "top_up_per")),
   .text (clean_text (row "euin")), .text (clean_text (row "sub_arn_co")),
   .text (clean_text (row "ter_locati")), .text (clean_text (row "scheme_cod")),
   .text (clean_text (row "target_sch_2")), .text (clean_text (row "amc_code")),
   .text (clean_text (row "user_code")), .text (clean_text (row "package_na")),
   .text (clean_text (row "special_pr")), .text (clean_text (row "subtrxndes")),
   .date (clean_date (row "pause_from")), .date (clean_date (row "pause_to_d")),
   .text (clean_text (row "folio_old")), .text (clean_text (row "ft_sip_reg")),
   .text (clean_text (row "scheme_fol")), .text (clean_text (row "request_re")),
   .file source_file, .stamp now, .stamp now]

/-- The key of the "final dedup" dict pass, line 158:
`(row[2], row[5], row[7])` on the cleaned tuple. -/
def sip_dict_key (r : List CleanedValue) :
    Option CleanedValue × Option CleanedValue × Option CleanedValue :=
  (r.get? 2, r.get? 5, r.get? 7)

/-- How a raw-record sip key appears as a dict key of its cleaned row. -/
def sipEmbedKey (k : SipKey) :
    Option CleanedValue × Option CleanedValue × Option CleanedValue :=
  (some (.text k.1), some (.num k.2.1), some (.date k.2.2))

theorem sip_dict_key_cleaned (source_file : String) (now : Nat)
    (row : RawRecord) :
    sip_dict_key (sip_cleaned_row source_file now row) =
      sipEmbedKey (sip_key row) := rfl

theorem sipEmbedKey_injective : Function.Injective sipEmbedKey := by
  intro a b h
  obtain ⟨a1, a2, a3⟩ := a
  obtain ⟨b1, b2, b3⟩ := b
  simp only [sipEmbedKey, Prod.mk.injEq, Option.some.injEq,
    CleanedValue.text.injEq, CleanedValue.num.injEq,
    CleanedValue.date.injEq] at h
  simp [h.1, h.2.1, h.2.2]

/-- The dedup loop of lines 116-148. -/
def sip_dedup (source_file : String) (now : Nat)
    (rows : List RawRecord) : DedupState SipKey :=
  dedupRun sip_key (sip_cleaned_row source_file now) rows

/-- Lines 157-159: `deduped_values_list`. -/
def sip_deduped (source_file : String) (now : Nat)
    (rows : List RawRecord) : List (List CleanedValue) :=
  pyDictValues ((sip_dedup source_file now rows).values_list.map
    (fun r => (sip_dict_key r, r)))

/-- The dict the sip loader returns. -/
inductive SipRet where
  | skippedAlreadyProcessed : SipRet
  | skippedNoValidData : SipRet
  | success : Nat → Nat → SipRet
  | error : SipRet
deriving DecidableEq, Repr

/-- Observable outcome of one `process_sip_wbr49_dataframe` invocation. -/
structure SipRun where
  committed : Nat
  summaryLines : List (String × String × Nat × Nat)
  ret : SipRet
deriving DecidableEq, Repr

/-- `process_sip_wbr49_dataframe(df, source_file, table_name)`, lines
95-257.  `alreadyProcessed` is the outcome of the file-hash check of
lines 102-106 (true only for an on-disk source file already recorded in
`processed_files`).  An empty deduplicated batch returns the skip dict
with no summary line; a failing batch raises into the `except` clause
(error dict, no summary line); on success one summary line is appended
and the success dict with processed and duplicate counts is returned. -/
def process_sip_wbr49_dataframe (alreadyProcessed : Bool)
    (today source_file : String) (now : Nat)
    (fails : List CleanedValue → Bool) (rows : List RawRecord) : SipRun :=
  if alreadyProcessed then ⟨0, [], .skippedAlreadyProcessed⟩
  else
    let st := sip_dedup source_file now rows
    let deduped := sip_deduped source_file now rows
    if deduped = [] then ⟨0, [], .skippedNoValidData⟩
    else
      let batches := pyChunks 500 deduped
      let committed := insert_batches_no_retry fails batches
      if batches.any (fun b => b.any fails) then ⟨committed, [], .error⟩
      else
        ⟨committed, [(today, source_file, committed, st.duplicates.length)],
          .success committed st.duplicates.length⟩

/-! ## `process_kfintech_trxn_dataframe`
(src/processor/kafintech_trxn_report.py lines 37-225) -/

/-- Extract the text payload of a cleaned cell. -/
def cvText : Option CleanedValue → Option String
  | some (.text v) => v
  | _ => none

/-- Extract the date payload of a cleaned cell. -/
def cvDate : Option CleanedValue → Option Date
  | some (.date v) => v
  | _ => none

/-- Extract the numeric payload of a cleaned cell. -/
def cvNum : Option CleanedValue → Option Rat
  | some (.num v) => v
  | _ => none

set_option maxHeartbeats 1000000 in
/-- The `cleaned_row` tuple of lines 49-79, in source order; positions
9, 17, 20 and 30 are `td_trno`, `td_trdt`, `td_amt` and `unqno`. -/
def kfin_cleaned_row (source_file : String) (now : Nat)
    (row : RawRecord) : List CleanedValue :=
  [.text (clean_text (row "fmcode")), .text (clean_text (row "td_fund")),
   .text (clean_text (row "td_scheme")), .text (clean_text (row "td_plan")),
   .text (clean_text (row "td_acno")), .text (clean_text (row "schpln")),
   .text (clean_text (row "divopt")), .text (clean_text (row "funddesc")),
   .text (clean_text (row "td_purred")), .text (clean_text (row "td_trno")),
   .text (clean_text (row "smcode")), .text (clean_text (row "chqno")),
   .text (clean_text (row "invname")), .text (clean_text (row "trnmode")),
   .text (clean_text (row "trnstat")), .text (clean_text (row "td_branch")),
   .text (clean_text (row "isctrno")), .date (clean_date (row "td_trdt")),
   .date (clean_date (row "td_prdt")), .num (clean_numeric (row "td_units")),
   .num (clean_numeric (row "td_amt")), .text (clean_text (row "td_agent")),
   .text (clean_text (row "td_broker")), .num (clean_numeric (row "brokper")),
   .num (clean_numeric (row "brokcomm")), .text (clean_text (row "invid")),
   .date (clean_date (row "crdate")), .text (clean_text (row "crtime")),
   .text (clean_text (row "trnsub")), .text (clean_text (row "td_appno")),
   .text (clean_text (row "unqno")), .text (clean_text (row "trdesc")),
   .text (clean_text (row "td_trtype")), .date (clean_date (row "navdate")),
   .date (clean_date (row "portdt")), .text (clean_text (row "assettype")),
   .text (clean_text (row "subtrtype")), .text (clean_text (row "citycateg0")),
   .text (clean_text (row "euin")), .num (clean_numeric (row "trcharges")),
   .text (clean_text (row "clientid")), .text (clean_text (row "dpid")),
   .num (clean_numeric (row "stt")), .text (clean_text (row "ihno")),
   .text (clean_text (row "branchcode")), .text (clean_text (row "inwardnum1")),
   .text (clean_text (row "pan1")), .text (clean_text (row "pan2")),
   .text (clean_text (row "pan3")), .num (clean_numeric (row "tdsamount")),
   .date (clean_date (row "chqdate")), .text (clean_text (row "chqbank")),
   .text (clean_text (row "trflag")), .num (clean_numeric (row "load1")),
   .date (clean_date (row "brok_entdt")), .text (clean_text (row "nctremarks")),
   .text (clean_text (row "prcode1")), .text (clean_text (row "status")),
   .text (clean_text (row "schemeisin")), .num (clean_numeric (row "td_nav")),
   .num (clean_numeric (row "insamount")), .text (clean_text (row "rejtrnoor2")),
   .text (clean_text (row "evalid")), .text (clean_text (row "edeclflag")),
   .text (clean_text (row "subarncode")), .text (clean_text (row "atmcardre3")),
   .text (clean_text (row "atmcardst4")), .text (clean_text (row "sch1")),
   .text (clean_text (row "pln1")), .text (clean_text (row "td_trxnmo5")),
   .text (clean_text (row "newunqno")), .date (clean_date (row "sipregdt")),
   .text (clean_text (row "sipregslno")), .num (clean_numeric (row "divper")),
   .text (clean_text (row "can")), .text (clean_text (row "exchorgtr6")),
   .text (clean_text (row "electrxnf7")), .text (clean_text (row "cleared")),
   .num (clean_numeric (row "brok_valu8")), .text (clean_text (row "td_pop")),
   .text (clean_text (row "invstate")), .num (clean_numeric (row "stampduty")),
   .file source_file, .stamp now, .stamp now]

/-- `record[30]`, the `unqno` key; `clean_text` never yields the empty
string, so a record's `unqno` is falsy exactly when this is `none`. -/
def kfin_unqno (r : List CleanedValue) : Option String :=
  cvText (r.get? 30)

/-- The three volatile fields of an existing row fetched by the
existence check (lines 92-105): `td_trno`, `td_trdt`, `td_amt`. -/
structure KfinExistingFields where
  td_trno : Option String
  td_trdt : Option Date
  td_amt : Option Rat
deriving DecidableEq, Repr

/-- The classification loop of lines 108-125: a record with a falsy or
unseen `unqno` goes to `new_records`; one whose existing row differs in
any of the three compared fields goes to `update_records`; one equal on
all three is skipped.  `existing` is the database oracle behind the
`SELECT ... WHERE unqno IN (...)` existence check. -/
def kfin_classify (existing : String → Option KfinExistingFields)
    (values_list : List (List CleanedValue)) :
    List (List CleanedValue) × List (List CleanedValue) :=
  values_list.foldl
    (fun acc record =>
      match kfin_unqno record with
      | none => (acc.1 ++ [record], acc.2)
      | some u =>
        match existing u with
        | none => (acc.1 ++ [record], acc.2)
        | some ex =>
          if ex.td_trno ≠ cvText (record.get? 9) ∨
              ex.td_trdt ≠ cvDate (record.get? 17) ∨
              ex.td_amt ≠ cvNum (record.get? 20) then
            (acc.1, acc.2 ++ [record])
          else (acc.1, acc.2))
    ([], [])

/-- Observable outcome of one `process_kfintech_trxn_dataframe`
invocation; `ret` is the integer the function returns. -/
structure KfinRun where
  inserted : Nat
  updated : Nat
  rowFailures : Nat
  summaryLines : List (String × String × Nat × Nat × Nat)
  ret : Nat
deriving DecidableEq, Repr

/-- `process_kfintech_trxn_dataframe(df, source_file, table_name)`,
lines 37-225, as a function of the clock, the existence-check oracle,
the two constraint-violation oracles (batch/row inserts and row
updates), and the record list.  An empty `values_list` returns `0`
before touching the database (line 86), with no summary line.
Otherwise inserts run through the batch-then-row-retry loop, updates
run row by row counting successes, one summary line
`(today, source_file, len(values_list), total_inserted, total_updated)`
is appended, and `total_inserted + total_updated` is returned.  (The
outer `except` path — a failure of the existence check or of the
report write — is not modelled; row-level failures are all caught
inside the loops.) -/
def process_kfintech_trxn_dataframe (today source_file : String) (now : Nat)
    (existing : String → Option KfinExistingFields)
    (failsIns failsUpd : List CleanedValue → Bool)
    (rows : List RawRecord) : KfinRun :=
  let values_list := rows.map (kfin_cleaned_row source_file now)
  if values_list = [] then ⟨0, 0, 0, [], 0⟩
  else
    let cls := kfin_classify existing values_list
    let insOut := insert_batches_with_row_retry failsIns (pyChunks 500 cls.1)
    let upd := (cls.2.filter (fun r => !failsUpd r)).length
    ⟨insOut.1, upd, insOut.2 + (cls.2.filter failsUpd).length,
      [(today, source_file, values_list.length, insOut.1, upd)],
      insOut.1 + upd⟩

/-! ## Claim C1: first-wins intra-batch dedup -/

theorem dedupRun_values_eq (key : RawRecord → κ)
    (clean : RawRecord → List CleanedValue) (rows : List RawRecord) :
    (dedupRun key clean rows).values_list = (keptFrom key ∅ rows).map clean := by
  unfold dedupRun
  rw [dedupRun_foldl_eq]
  simp

theorem dedupRun_dups_eq (key : RawRecord → κ)
    (clean : RawRecord → List CleanedValue) (rows : List RawRecord) :
    (dedupRun key clean rows).duplicates = dupsFrom key ∅ rows := by
  unfold dedupRun
  rw [dedupRun_foldl_eq]
  simp

theorem filterOfMap {β γ : Type} (f : β → γ) (p : γ → Bool) (l : List β) :
    (l.map f).filter p = (l.filter (fun x => p (f x))).map f := by
  induction l with
  | nil => rfl
  | cons x xs ih =>
    by_cases h : p (f x) = true
    · simp [List.filter_cons, h, ih]
    · simp only [Bool.not_eq_true] at h
      simp [List.filter_cons, h, ih]

theorem pyDictValues_on_keyed {δ : Type} [DecidableEq δ]
    (values : List (List CleanedValue)) (dk : List CleanedValue → δ)
    (hnd : (values.map dk).Nodup) :
    pyDictValues (values.map (fun r => (dk r, r))) = values := by
  rw [pyDictValues_of_nodup]
  · rw [List.map_map]
    have : ((fun x : δ × List CleanedValue => x.2) ∘ fun r => (dk r, r)) = id := rfl
    rw [this, List.map_id]
  · rw [List.map_map]
    exact hnd

theorem cam_inv_kept_keys_nodup (sf : String) (now : Nat)
    (rows : List RawRecord) :
    (((keptFrom cam_inv_key ∅ rows).map (cam_inv_cleaned_row sf now)).map
      cam_inv_dict_key).Nodup := by
  rw [List.map_map]
  have : cam_inv_dict_key ∘ cam_inv_cleaned_row sf now =
      camInvEmbedKey ∘ cam_inv_key := by
    funext r
    exact cam_inv_dict_key_cleaned sf now r
  rw [this, ← List.map_map]
  exact (keptFrom_keys_nodup cam_inv_key ∅ rows).map camInvEmbedKey_injective

theorem sip_kept_keys_nodup (sf : String) (now : Nat)
    (rows : List RawRecord) :
    (((keptFrom sip_key ∅ rows).map (sip_cleaned_row sf now)).map
      sip_dict_key).Nodup := by
  rw [List.map_map]
  have : sip_dict_key ∘ sip_cleaned_row sf now = sipEmbedKey ∘ sip_key := by
    funext r
    exact sip_dict_key_cleaned sf now r
  rw [this, ← List.map_map]
  exact (keptFrom_keys_nodup sip_key ∅ rows).map sipEmbedKey_injective

theorem cam_inv_deduped_eq_values (sf : String) (now : Nat)
    (rows : List RawRecord) :
    cam_inv_deduped sf now rows = (cam_inv_dedup sf now rows).values_list := by
  unfold cam_inv_deduped
  rw [pyDictValues_on_keyed _ cam_inv_dict_key]
  rw [cam_inv_dedup, dedupRun_values_eq]
  exact cam_inv_kept_keys_nodup sf now rows

theorem sip_deduped_eq_values (sf : String) (now : Nat)
    (rows : List RawRecord) :
    sip_deduped sf now rows = (sip_dedup sf now rows).values_list := by
  unfold sip_deduped
  rw [pyDictValues_on_keyed _ sip_dict_key]
  rw [sip_dedup, dedupRun_values_eq]
  exact sip_kept_keys_nodup sf now rows

/-- C1: within one invocation of `process_cam_inv_dataframe` (and of
`process_sip_wbr49_dataframe`), committed rows carry pairwise-distinct
business keys; iterating records in original order, the first record
with a given key is kept (its full cleaned row, hence all non-key
fields, comes from that first record) and every later record with the
same key is diverted into `duplicates`, never committed; the
`duplicates` entries for a key number exactly its occurrences minus the
one kept — in particular exactly `1` when two records share a key.
The "final dedup" dict pass of line 98/158 is proved to be the identity
on the already-deduplicated batch, so the committed rows are exactly
the first-occurrence cleaned rows. -/
theorem C1_first_wins_dedup :
    ∀ (sf : String) (now : Nat) (rows : List RawRecord),
    (cam_inv_dedup sf now rows).values_list =
        (keptFrom cam_inv_key ∅ rows).map (cam_inv_cleaned_row sf now) ∧
    ((keptFrom cam_inv_key ∅ rows).map cam_inv_key).Nodup ∧
    cam_inv_deduped sf now rows = (cam_inv_dedup sf now rows).values_list ∧
    ((cam_inv_deduped sf now rows).map cam_inv_dict_key).Nodup ∧
    (∀ k : CamInvKey,
      (keptFrom cam_inv_key ∅ rows).filter (fun r => decide (cam_inv_key r = k)) =
        (rows.filter (fun r => decide (cam_inv_key r = k))).take 1) ∧
    (∀ k : CamInvKey,
      (cam_inv_deduped sf now rows).filter
          (fun c => decide (cam_inv_dict_key c = camInvEmbedKey k)) =
        ((rows.filter (fun r => decide (cam_inv_key r = k))).take 1).map
          (cam_inv_cleaned_row sf now)) ∧
    (cam_inv_dedup sf now rows).duplicates = dupsFrom cam_inv_key ∅ rows ∧
    (∀ k : CamInvKey,
      ((cam_inv_dedup sf now rows).duplicates.filter
          (fun r => decide (cam_inv_key r = k))).length =
        (rows.filter (fun r => decide (cam_inv_key r = k))).length - 1) ∧
    (sip_dedup sf now rows).values_list =
        (keptFrom sip_key ∅ rows).map (sip_cleaned_row sf now) ∧
    ((keptFrom sip_key ∅ rows).map sip_key).Nodup ∧
    sip_deduped sf now rows = (sip_dedup sf now rows).values_list ∧
    (∀ k : SipKey,
      (keptFrom sip_key ∅ rows).filter (fun r => decide (sip_key r = k)) =
        (rows.filter (fun r => decide (sip_key r = k))).take 1) ∧
    (∀ k : SipKey,
      ((sip_dedup sf now rows).duplicates.filter
          (fun r => decide (sip_key r = k))).length =
        (rows.filter (fun r => decide (sip_key r = k))).length - 1) := by
  intro sf now rows
  have camvals := dedupRun_values_eq cam_inv_key (cam_inv_cleaned_row sf now) rows
  have camdups := dedupRun_dups_eq cam_inv_key (cam_inv_cleaned_row sf now) rows
  have sipvals := dedupRun_values_eq sip_key (sip_cleaned_row sf now) rows
  have sipdups := dedupRun_dups_eq sip_key (sip_cleaned_row sf now) rows
  refine ⟨camvals, keptFrom_keys_nodup cam_inv_key ∅ rows,
    cam_inv_deduped_eq_values sf now rows, ?_, ?_, ?_, camdups, ?_,
    sipvals, keptFrom_keys_nodup sip_key ∅ rows,
    sip_deduped_eq_values sf now rows, ?_, ?_⟩
  · rw [cam_inv_deduped_eq_values sf now rows, cam_inv_dedup, camvals]
    exact cam_inv_kept_keys_nodup sf now rows
  · intro k
    simpa using keptFrom_filter_key cam_inv_key ∅ rows k
  · intro k
    rw [cam_inv_deduped_eq_values sf now rows, cam_inv_dedup, camvals]
    rw [filterOfMap]
    have hpred : (fun r => decide
        (cam_inv_dict_key (cam_inv_cleaned_row sf now r) = camInvEmbedKey k)) =
        (fun r => decide (cam_inv_key r = k)) := by
      funext r
      rw [cam_inv_dict_key_cleaned]
      exact decide_eq_decide.mpr camInvEmbedKey_injective.eq_iff
    rw [hpred]
    congr 1
    simpa using keptFrom_filter_key cam_inv_key ∅ rows k
  · intro k
    rw [cam_inv_dedup, camdups, dupsFrom_filter_key cam_inv_key ∅ rows k]
    simp
  · intro k
    simpa using keptFrom_filter_key sip_key ∅ rows k
  · intro k
    rw [sip_dedup, sipdups, dupsFrom_filter_key sip_key ∅ rows k]
    simp

/-! ## Claim C2: batch failure handling -/

theorem length_filter_add_length_filter_not {β : Type} (p : β → Bool)
    (l : List β) :
    (l.filter p).length + (l.filter (fun a => !p a)).length = l.length := by
  induction l with
  | nil => rfl
  | cons x xs ih =>
    by_cases h : p x = true
    · simp [List.filter_cons, h, ← ih]
      omega
    · simp only [Bool.not_eq_true] at h
      simp [List.filter_cons, h, ← ih]
      omega

theorem pyChunks_single {β : Type} (n : Nat) (l : List β) (hne : l ≠ [])
    (hlen : l.length ≤ n) : pyChunks n l = [l] := by
  cases l with
  | nil => exact absurd rfl hne
  | cons x xs =>
    show pyChunksGo n (xs.length + 1) (x :: xs) = [x :: xs]
    simp only [pyChunksGo]
    rw [List.take_of_length_le hlen, List.drop_eq_nil_of_le hlen]
    cases xs.length <;> rfl

theorem insert_batches_no_retry_all_ok {β : Type} (fails : β → Bool)
    (batches : List (List β))
    (h : batches.any (fun b => b.any fails) = false) :
    insert_batches_no_retry fails batches = batches.flatten.length := by
  induction batches with
  | nil => rfl
  | cons batch rest ih =>
    simp only [List.any_cons, Bool.or_eq_false_iff] at h
    simp [insert_batches_no_retry, h.1, ih h.2]

/-- C2 counterexample: a `process_cam_inv_dataframe` invocation whose
deduplicated batch holds `N = 2` rows of which exactly one (the one
with `folio_no = F2`) violates a constraint.  The claim requires
`N - 1 = 1` committed rows; the code commits `0`: its batch loop has no
row-by-row retry, the batch exception propagates to the outer `except`
which rolls back, so the whole batch is discarded. -/
theorem C2_counterexample_no_row_retry :
    (process_cam_inv_dataframe "2024-01-02" "wbr2c.dbf" 0
      (fun c => decide (c.get? 1 = some (CleanedValue.text (some "F2"))))
      [recOf [("folio_no", .str "F1"), ("trxnno", .str "T1"),
        ("traddate", .str "2024-01-02")],
       recOf [("folio_no", .str "F2"), ("trxnno", .str "T2"),
        ("traddate", .str "2024-01-02")]]).committed = 0 ∧
    (0 : Nat) ≠ 2 - 1 :=
  ⟨by decide, by decide⟩

/-- C2 amended: only the kfintech transaction loader implements the
batch-then-row fallback: for any batching into 500-row batches, a row
set with exactly one constraint-violating row yields `N - 1` committed
rows and exactly `1` logged row failure, and the loop always runs to
completion.  The cam_inv loader (and the sip loader, which shares its
loop) has no row-level retry: a failing batch aborts the loop, so a
single bad row in a batch of up to 500 rows leaves `0` rows committed. -/
theorem C2_row_fallback_amended :
    (∀ {β : Type} (fails : β → Bool) (rows : List β),
      (rows.filter fails).length = 1 →
      insert_batches_with_row_retry fails (pyChunks 500 rows) =
        (rows.length - 1, 1)) ∧
    (∀ {β : Type} (fails : β → Bool) (rows : List β),
      rows ≠ [] → rows.length ≤ 500 → rows.any fails = true →
      insert_batches_no_retry fails (pyChunks 500 rows) = 0) := by
  constructor
  · intro β fails rows h1
    rw [insert_batches_with_row_retry_eq,
      pyChunks_flatten 500 (by norm_num) rows, h1]
    have := length_filter_add_length_filter_not fails rows
    have hlen : (rows.filter (fun r => !fails r)).length = rows.length - 1 := by
      omega
    rw [hlen]
  · intro β fails rows hne hlen hany
    rw [pyChunks_single 500 rows hne hlen]
    simp [insert_batches_no_retry, hany]

/-- Witness for the amended C2: three rows with one violator pass
through the retry loop as `(2, 1)`; two rows with one violator pass
through the no-retry loop as `0` committed. -/
theorem C2_row_fallback_amended_witness :
    insert_batches_with_row_retry (fun r => decide (r = 1))
      (pyChunks 500 [0, 1, 2]) = (2, 1) ∧
    insert_batches_no_retry (fun r => decide (r = 1))
      (pyChunks 500 [0, 1]) = 0 :=
  ⟨C2_row_fallback_amended.1 (fun r => decide (r = 1)) [0, 1, 2] (by decide),
    C2_row_fallback_amended.2 (fun r => decide (r = 1)) [0, 1]
      (by decide) (by decide) (by decide)⟩

/-! ## Claim C5: return values of the loaders -/

/-- C5 counterexample: an invocation of `process_cam_inv_dataframe`
that commits one row returns `None` — the function has no `return`
statement carrying a value on any path, so the committed count is
dropped rather than surfaced to the caller (src/main.py line 132 then
reports this `None` as the processed-record count). -/
theorem C5_counterexample_cam_inv_returns_none :
    (process_cam_inv_dataframe "2024-01-02" "wbr2c.dbf" 0 (fun _ => false)
      [recOf [("folio_no", .str "F1"), ("trxnno", .str "T1"),
        ("traddate", .str "2024-01-02")]]).committed = 1 ∧
    (process_cam_inv_dataframe "2024-01-02" "wbr2c.dbf" 0 (fun _ => false)
      [recOf [("folio_no", .str "F1"), ("trxnno", .str "T1"),
        ("traddate", .str "2024-01-02")]]).ret = none :=
  ⟨by decide, by decide⟩

/-- C5 amended: the kfintech transaction loader returns, on every exit
path, exactly the number of rows actually committed — the insert-path
rows that did not violate a constraint plus the update-path rows whose
update succeeded (0 for the empty batch) — never the pre-dedup row
count.  The cam_inv loader, in contrast, returns `None` on every exit
path, so its outcome is dropped. -/
theorem C5_loader_return_amended :
    (∀ (today sf : String) (now : Nat) (fails : List CleanedValue → Bool)
        (rows : List RawRecord),
      (process_cam_inv_dataframe today sf now fails rows).ret = none) ∧
    (∀ (today sf : String) (now : Nat)
        (existing : String → Option KfinExistingFields)
        (failsIns failsUpd : List CleanedValue → Bool)
        (rows : List RawRecord),
      (process_kfintech_trxn_dataframe today sf now existing failsIns
          failsUpd rows).ret =
        ((kfin_classify existing (rows.map (kfin_cleaned_row sf now))).1.filter
            (fun r => !failsIns r)).length +
        ((kfin_classify existing (rows.map (kfin_cleaned_row sf now))).2.filter
            (fun r => !failsUpd r)).length) := by
  constructor
  · intro today sf now fails rows
    unfold process_cam_inv_dataframe
    by_cases h1 : cam_inv_deduped sf now rows = []
    · simp [h1]
    · simp only [if_neg h1]
      by_cases h2 : (pyChunks 500 (cam_inv_deduped sf now rows)).any
          (fun b => b.any fails) = true
      · simp [h2]
      · simp [h2]
  · intro today sf now existing failsIns failsUpd rows
    unfold process_kfintech_trxn_dataframe
    by_cases h1 : rows.map (kfin_cleaned_row sf now) = []
    · rw [List.map_eq_nil_iff] at h1
      subst h1
      simp [kfin_classify]
    · simp only [if_neg h1]
      rw [insert_batches_with_row_retry_eq,
        pyChunks_flatten 500 (by norm_num)]

/-! ## Claim C6: the per-day summary line -/

/-- C6 counterexample: an invocation of `process_cam_inv_dataframe`
whose batch is empty after dedup appends no line to the per-day
`summary.csv` — the function returns at line 104 ("No valid data to
insert.") before the summary write at lines 137-142 — where the claim
requires one line with zero counts. -/
theorem C6_counterexample_no_summary_on_empty :
    (process_cam_inv_dataframe "2024-01-02" "wbr2c.dbf" 0 (fun _ => false)
      []).summaryLines = [] ∧
    ([] : List (String × String × Nat × Nat)).length ≠ 1 :=
  ⟨by decide, by decide⟩

/-- C6 amended: a summary line is appended only on the fully successful
path: when the deduplicated batch is empty the loader returns early and
appends nothing, and when a batch fails the exception skips the summary
write; on success exactly one line with the real counts is appended.
The sip loader behaves the same, additionally appending nothing when it
skips an already-processed file. -/
theorem C6_summary_line_amended :
    (∀ (today sf : String) (now : Nat) (fails : List CleanedValue → Bool)
        (rows : List RawRecord),
      cam_inv_deduped sf now rows = [] →
      (process_cam_inv_dataframe today sf now fails rows).summaryLines = []) ∧
    (∀ (today sf : String) (now : Nat) (fails : List CleanedValue → Bool)
        (rows : List RawRecord),
      (pyChunks 500 (cam_inv_deduped sf now rows)).any
          (fun b => b.any fails) = true →
      (process_cam_inv_dataframe today sf now fails rows).summaryLines = []) ∧
    (∀ (today sf : String) (now : Nat) (fails : List CleanedValue → Bool)
        (rows : List RawRecord),
      cam_inv_deduped sf now rows ≠ [] →
      (pyChunks 500 (cam_inv_deduped sf now rows)).any
          (fun b => b.any fails) = false →
      (process_cam_inv_dataframe today sf now fails rows).summaryLines =
        [(today, sf, (cam_inv_deduped sf now rows).length,
          (dupsFrom cam_inv_key ∅ rows).length)]) ∧
    (∀ (today sf : String) (now : Nat) (fails : List CleanedValue → Bool)
        (rows : List RawRecord),
      (process_sip_wbr49_dataframe true today sf now fails rows).summaryLines
        = []) ∧
    (∀ (today sf : String) (now : Nat) (fails : List CleanedValue → Bool)
        (rows : List RawRecord),
      sip_deduped sf now rows = [] →
      (process_sip_wbr49_dataframe false today sf now fails rows).summaryLines
        = []) ∧
    (∀ (today sf : String) (now : Nat) (fails : List CleanedValue → Bool)
        (rows : List RawRecord),
      sip_deduped sf now rows ≠ [] →
      (pyChunks 500 (sip_deduped sf now rows)).any
          (fun b => b.any fails) = false →
      (process_sip_wbr49_dataframe false today sf now fails rows).summaryLines
        = [(today, sf, (sip_deduped sf now rows).length,
            (dupsFrom sip_key ∅ rows).length)]) := by
  refine ⟨?_, ?_, ?_, ?_, ?_, ?_⟩
  · intro today sf now fails rows h
    unfold process_cam_inv_dataframe
    simp [h]
  · intro today sf now fails rows h
    unfold process_cam_inv_dataframe
    by_cases h1 : cam_inv_deduped sf now rows = []
    · simp [h1]
    · simp [if_neg h1, h]
  · intro today sf now fails rows h1 h2
    unfold process_cam_inv_dataframe
    simp only [if_neg h1, h2, Bool.false_eq_true, if_false]
    rw [insert_batches_no_retry_all_ok _ _ h2,
      pyChunks_flatten 500 (by norm_num)]
    rw [cam_inv_dedup, dedupRun_dups_eq]
  · intro today sf now fails rows
    rfl
  · intro today sf now fails rows h
    unfold process_sip_wbr49_dataframe
    simp [h]
  · intro today sf now fails rows h1 h2
    unfold process_sip_wbr49_dataframe
    simp only [if_neg h1, h2, Bool.false_eq_true, if_false, Bool.false_eq_true]
    rw [insert_batches_no_retry_all_ok _ _ h2,
      pyChunks_flatten 500 (by norm_num)]
    rw [sip_dedup, dedupRun_dups_eq]

/-- Witness for the amended C6: the empty invocation appends no line;
a successful one-row invocation appends exactly one line with its
counts. -/
theorem C6_summary_line_amended_witness :
    (process_cam_inv_dataframe "2024-01-02" "wbr2c.dbf" 0 (fun _ => false)
      []).summaryLines = [] ∧
    (process_cam_inv_dataframe "2024-01-02" "wbr2c.dbf" 0 (fun _ => false)
      [recOf [("folio_no", .str "F1"), ("trxnno", .str "T1"),
        ("traddate", .str "2024-01-02")]]).summaryLines =
      [("2024-01-02", "wbr2c.dbf",
        (cam_inv_deduped "wbr2c.dbf" 0
          [recOf [("folio_no", .str "F1"), ("trxnno", .str "T1"),
            ("traddate", .str "2024-01-02")]]).length,
        (dupsFrom cam_inv_key ∅
          [recOf [("folio_no", .str "F1"), ("trxnno", .str "T1"),
            ("traddate", .str "2024-01-02")]]).length)] :=
  ⟨C6_summary_line_amended.1 "2024-01-02" "wbr2c.dbf" 0 (fun _ => false) []
      (by decide),
    C6_summary_line_amended.2.2.1 "2024-01-02" "wbr2c.dbf" 0 (fun _ => false)
      [recOf [("folio_no", .str "F1"), ("trxnno", .str "T1"),
        ("traddate", .str "2024-01-02")]] (by decide) (by decide)⟩

end MFProc
